import Mathlib

/-!
Shallow embedding of the esri-ascii-grid reader (src/header.rs, src/ascii_file.rs).

Numeric coordinates and cell values are modelled by `ℚ` (the reader is generic
over any `Numerical` type; the claims state exact arithmetic facts).  Machine
`usize` indices are modelled by `ℕ`.  The `f64 as usize` / `NumCast::from(..)`
truncation of a nonnegative value is modelled by `Int.toNat ⌊·⌋`; in the Rust
source `NumCast::from(..).unwrap()` panics on a negative value, a case that is
unreachable under the header invariants (`nrows, ncols ≥ 1`, positive cell
size) assumed by the theorems below.

A whitespace-separated token of a data line is modelled by the result of
parsing it: `some v` for a numeric token with value `v`, `none` for a token
that fails to parse.  A data line is either a successfully read line of tokens
or an I/O read failure.  Rust `panic!`/`unwrap()`-on-failure outcomes are made
explicit with dedicated result constructors.
-/

/-- Result of parsing one whitespace-separated token of a data line. -/
abbrev Token := Option ℚ

/-- One data line as delivered by the buffered reader: either the parse
results of its tokens, or an I/O error while reading the line. -/
inductive LineRead where
  | ok (toks : List Token)
  | ioError
deriving DecidableEq, Repr

/-- `error.rs`: the error enum (the variants relevant to the embedded code). -/
inductive Error where
  | ioFailure
  | MismatchedRowCount (expected got : ℕ)
  | MismatchColumnCount (expected got : ℕ)
  | OutOfBounds (row col : ℕ)
  | ParseFloat
deriving DecidableEq, Repr

/-- Outcome of a Rust function returning `Result<α, Error>` whose body may
also panic (`unwrap()` on `Err`/`None`, out-of-range slice indexing). -/
inductive RustResult (α : Type) where
  | ok (v : α)
  | err (e : Error)
  | panicked
deriving DecidableEq, Repr

/-- Outcome of a Rust function returning `Option<α>` whose body may panic. -/
inductive RustOpt (α : Type) where
  | none
  | some (v : α)
  | panicked
deriving DecidableEq, Repr

/-- `line.split_whitespace().map(|s| s.parse()).collect::<Result<Vec<_>, _>>()`:
all tokens must parse, otherwise the whole line fails. -/
def parseTokens : List Token → Option (List ℚ)
  | [] => some []
  | Option.none :: _ => none
  | Option.some v :: rest => (parseTokens rest).map (v :: ·)

/-- `header.rs`: `CornerType`. -/
inductive CornerType where
  | corner
  | center
deriving DecidableEq, Repr

/-- `header.rs`: `EsriASCIIRasterHeader` (fields in source order). -/
structure EsriASCIIRasterHeader where
  ncols : ℕ
  nrows : ℕ
  xll : ℚ
  yll : ℚ
  yur : ℚ
  xur : ℚ
  cornertype : CornerType
  cellsize : ℚ
  nodata_value : Option ℚ
deriving DecidableEq, Repr

/-- `EsriASCIIRasterHeader::new`: normalize a `Center` anchor to corner
semantics by shifting the origin by `-cellsize/2` on both axes, then compute
the derived upper bounds. -/
def EsriASCIIRasterHeader.new (ncols nrows : ℕ) (xll0 yll0 : ℚ)
    (cornertype : CornerType) (cellsize : ℚ) (nodata_value : Option ℚ) :
    EsriASCIIRasterHeader :=
  let two : ℚ := 2
  let xll := if cornertype = CornerType.center then xll0 - cellsize / two else xll0
  let yll := if cornertype = CornerType.center then yll0 - cellsize / two else yll0
  let xur := xll + cellsize * ncols
  let yur := yll + cellsize * nrows
  { ncols := ncols, nrows := nrows, xll := xll, yll := yll, yur := yur,
    xur := xur, cornertype := cornertype, cellsize := cellsize,
    nodata_value := nodata_value }

def EsriASCIIRasterHeader.num_rows (h : EsriASCIIRasterHeader) : ℕ := h.nrows

def EsriASCIIRasterHeader.num_cols (h : EsriASCIIRasterHeader) : ℕ := h.ncols

def EsriASCIIRasterHeader.min_x (h : EsriASCIIRasterHeader) : ℚ := h.xll

def EsriASCIIRasterHeader.max_x (h : EsriASCIIRasterHeader) : ℚ := h.xur

def EsriASCIIRasterHeader.min_y (h : EsriASCIIRasterHeader) : ℚ := h.yll

def EsriASCIIRasterHeader.max_y (h : EsriASCIIRasterHeader) : ℚ := h.yur

def EsriASCIIRasterHeader.cell_size (h : EsriASCIIRasterHeader) : ℚ := h.cellsize

/-- `EsriASCIIRasterHeader::index_pos`: coordinates of the cell at the given
row and column, or `none` when out of bounds. -/
def EsriASCIIRasterHeader.index_pos (h : EsriASCIIRasterHeader) (row col : ℕ) :
    Option (ℚ × ℚ) :=
  if row ≥ h.nrows ∨ col ≥ h.ncols then none
  else
    some (h.min_x + h.cell_size * col, h.max_y - h.cell_size * row - h.cell_size)

/-- `EsriASCIIRasterHeader::index_of`: row and column of the cell containing
the given coordinates, or `none` when out of bounds.  The `usize` casts of the
source truncate the nonnegative quotients; `x == max_x` / `y == max_y` are
first pulled back by one so the extremes stay in range. -/
def EsriASCIIRasterHeader.index_of (h : EsriASCIIRasterHeader) (x y : ℚ) :
    Option (ℕ × ℕ) :=
  if x < h.min_x ∨ x > h.max_x ∨ y < h.min_y ∨ y > h.max_y then none
  else
    let dist_x := x - h.min_x
    let dist_y := y - h.min_y
    let index_x := dist_x / h.cellsize
    let index_y := dist_y / h.cellsize
    let index_x := if x = h.max_x then index_x - 1 else index_x
    let index_y := if y = h.max_y then index_y - 1 else index_y
    let col : ℕ := (⌊index_x⌋).toNat
    let row : ℕ := h.nrows - (⌊index_y⌋).toNat - 1
    some (row, col)

/-- The data section of the file: the data lines (already split into token
parse results) and the byte offset at which each line starts (abstract). -/
structure DataFile where
  lines : List LineRead
  lineOffset : ℕ → ℕ

/-- `ascii_file.rs`: `EsriASCIIReader` — header, data source and the two
caches.  `line_cache` is the parsed-row value cache, `line_start_cache` the
line-offset cache.  Row `r` of the grid is stored on data line
`nrows - 1 - r`: `from_file` seeds the offset of the first data line under
index `nrows - 1`, and both `build_index` and the forward-scanning seeker fill
the caches in that (reversed) order. -/
structure EsriASCIIReader where
  header : EsriASCIIRasterHeader
  data : DataFile
  line_cache : List (Option (List ℚ))
  line_start_cache : List (Option ℕ)

/-- `EsriASCIIReader::from_file` (state after a successful header parse):
empty row-value cache; offset cache seeded with the data-start offset at
index `nrows - 1`. -/
def EsriASCIIReader.from_file (h : EsriASCIIRasterHeader) (d : DataFile) :
    EsriASCIIReader :=
  { header := h, data := d,
    line_cache := List.replicate h.nrows none,
    line_start_cache :=
      (List.replicate h.nrows (Option.none)).set (h.nrows - 1) (some (d.lineOffset 0)) }

/-- `EsriASCIIReader::get_index`.  Out-of-bounds indices give `OutOfBounds`.
Otherwise the row is taken from the value cache if present, else its data line
(line `nrows - 1 - row`) is read and parsed with `s.parse().unwrap()` — a
token that fails to parse makes the source panic, as does indexing
`values[col]` when the line has at most `col` values.  A missing data line is
also a panic (`lines().next().unwrap()` on `None`).  The source additionally
memoizes the parsed row in `line_cache`, which does not affect the returned
value; the model returns the value only. -/
def EsriASCIIReader.get_index (g : EsriASCIIReader) (row col : ℕ) :
    RustResult ℚ :=
  if row ≥ g.header.nrows ∨ col ≥ g.header.ncols then
    .err (.OutOfBounds row col)
  else
    match g.line_cache.getD row none with
    | Option.some values =>
        if hc : col < values.length then .ok (values.get ⟨col, hc⟩) else .panicked
    | Option.none =>
        match g.data.lines.get? (g.header.nrows - 1 - row) with
        | Option.none => .panicked
        | Option.some .ioError => .err .ioFailure
        | Option.some (.ok toks) =>
            match parseTokens toks with
            | Option.none => .panicked
            | Option.some values =>
                if hc : col < values.length then .ok (values.get ⟨col, hc⟩)
                else .panicked

/-- `EsriASCIIReader::get`.  The source destructures the mapper result as
`let (col, row) = self.header.index_of(x, y)?;` — although `index_of` returns
`(row, col)` — and then calls `self.get_index(row, col).unwrap()` with those
swapped names; an `Err` from `get_index` panics through the `unwrap`. -/
def EsriASCIIReader.get (g : EsriASCIIReader) (x y : ℚ) : RustOpt ℚ :=
  match g.header.index_of x y with
  | Option.none => .none
  | Option.some p =>
      let col := p.1
      let row := p.2
      match g.get_index row col with
      | .ok v => .some v
      | .err _ => .panicked
      | .panicked => .panicked

/-- `EsriASCIIReader::get_interpolate`.  `ll_col`/`ll_row` floor the offsets
from the lower-left bound and are clamped with `.min(ncols - 2)` /
`.min(nrows - 2)`; the four neighbours are then fetched through `index_pos` /
`get_index` and blended.  All four `get_index` calls and the `index_pos` call
are `unwrap()`ed, so any failure panics. -/
def EsriASCIIReader.get_interpolate (g : EsriASCIIReader) (x y : ℚ) :
    RustOpt ℚ :=
  if x < g.header.min_x ∨ x > g.header.max_x ∨ y < g.header.min_y ∨ y > g.header.max_y then
    .none
  else
    let ll_col := min (⌊(x - g.header.min_x) / g.header.cellsize⌋).toNat (g.header.ncols - 2)
    let ll_row := min (⌊(y - g.header.min_y) / g.header.cellsize⌋).toNat (g.header.nrows - 2)
    match g.header.index_pos ll_row ll_col with
    | Option.none => .panicked
    | Option.some q =>
        let ll_x := q.1
        let ll_y := q.2
        match g.get_index ll_row ll_col, g.get_index ll_row (ll_col + 1),
              g.get_index (ll_row + 1) ll_col, g.get_index (ll_row + 1) (ll_col + 1) with
        | .ok ll, .ok lr, .ok ul, .ok ur =>
            let vert_weight := (x - ll_x) / g.header.cell_size
            let horiz_weight := (y - ll_y) / g.header.cell_size
            let ll_weight := (1 - vert_weight) * (1 - horiz_weight)
            let ur_weight := vert_weight * horiz_weight
            let ul_weight := (1 - vert_weight) * horiz_weight
            let lr_weight := vert_weight * (1 - horiz_weight)
            .some (ul * ul_weight + ur * ur_weight + ll * ll_weight + lr * lr_weight)
        | _, _, _, _ => .panicked

/-- The loop of `EsriASCIIReader::build_index`: `for row in (0..num_rows).rev()`
stores the current stream position (the offset of data line `j`) under index
`row` and then reads one line, failing with `MismatchedRowCount(num_rows, row)`
at end of file. -/
def buildIndexLoop (d : DataFile) (numRows : ℕ) :
    ℕ → ℕ → List (Option ℕ) → Except Error (List (Option ℕ))
  | 0, _, cache => .ok cache
  | r + 1, j, cache =>
      let cache2 := cache.set r (some (d.lineOffset j))
      if j < d.lines.length then buildIndexLoop d numRows r (j + 1) cache2
      else .error (.MismatchedRowCount numRows r)

/-- `EsriASCIIReader::build_index`: clear the offset cache, then scan the data
lines once, recording every line-start offset.  Only `line_start_cache` is
touched. -/
def EsriASCIIReader.build_index (g : EsriASCIIReader) :
    Except Error EsriASCIIReader :=
  (buildIndexLoop g.data g.header.num_rows g.header.num_rows 0
      (List.replicate g.header.num_rows none)).map
    (fun c => { g with line_start_cache := c })

/-- `ascii_file.rs`: the `LineReader` state machine of the consuming iterator.
`uninit` holds the pending seek to the data start (`seekFails` models an I/O
failure of that seek); `invalid` is reached after a failed seek, once its
stored error has been yielded. -/
inductive LineReader where
  | uninit (seekFails : Bool) (lines : List LineRead)
  | initialized (lines : List LineRead)
  | invalid
deriving DecidableEq, Repr

/-- `<LineReader as Iterator>::next`. -/
def LineReader.next : LineReader → Option LineRead × LineReader
  | .uninit true _ => (some .ioError, .invalid)
  | .uninit false lines =>
      match lines with
      | [] => (none, .initialized [])
      | l :: rest => (some l, .initialized rest)
  | .invalid => (none, .invalid)
  | .initialized [] => (none, .initialized [])
  | .initialized (l :: rest) => (some l, .initialized rest)

/-- One item of the consuming iterator: `Result<(usize, usize, f64), Error>`. -/
abbrev Item := Except Error (ℕ × ℕ × ℚ)

/-- `ascii_file.rs`: `EsriASCIIRasterIntoIterator` — the iterator state. -/
structure EsriASCIIRasterIntoIterator where
  header : EsriASCIIRasterHeader
  line_reader : LineReader
  row_it : Option (List ℚ)
  row : ℕ
  col : ℕ
  terminated : Bool
deriving DecidableEq, Repr

/-- Outcome of one call to `next()`: an item is yielded, or `None` is
returned, or the call panics. -/
inductive StepRes where
  | yield (v : Item)
  | stop
  | panic
deriving Repr

/-- The tail of `next()`: `self.row_it.as_mut().unwrap().next()`.  With no
row loaded the `unwrap` panics; with an exhausted row it yields
`Err(MismatchColumnCount(ncols, col))` (and leaves the state unchanged —
`terminated` is not set); otherwise it yields the next value, with the row
index reported as `nrows - 1 - current_row`. -/
def iterYield (s : EsriASCIIRasterIntoIterator) :
    StepRes × EsriASCIIRasterIntoIterator :=
  match s.row_it with
  | Option.none => (.panic, s)
  | Option.some [] =>
      (.yield (.error (.MismatchColumnCount s.header.ncols s.col)), s)
  | Option.some (v :: rest) =>
      (.yield (.ok (s.header.nrows - 1 - s.row, s.col, v)),
       { s with row_it := some rest, col := s.col + 1 })

/-- `<EsriASCIIRasterIntoIterator as Iterator>::next`, as a state-transition
function.  Faithful to the source, including its two slips: on a token that
fails to parse, the source builds `Some(Err(..))` **without returning it**
(`Some(Result::..::Err(error.into()));`), so control falls through to
`row_it.as_mut().unwrap()` with `row_it == None` and panics; and the
`MismatchColumnCount` arm never sets `terminated`. -/
def EsriASCIIRasterIntoIterator.next (s0 : EsriASCIIRasterIntoIterator) :
    StepRes × EsriASCIIRasterIntoIterator :=
  if s0.terminated then (.stop, s0)
  else
    -- discard the current row and advance once the column counter passed ncols
    let s := if s0.header.ncols ≤ s0.col
      then { s0 with row_it := none, row := s0.row + 1, col := 0 }
      else s0
    if s0.header.ncols ≤ s0.col ∧ s.header.nrows ≤ s.row then
      (.stop, { s with terminated := true })
    else
      match s.row_it with
      | Option.some _ => iterYield s
      | Option.none =>
          match s.line_reader.next with
          | (Option.some (.ok toks), lr) =>
              match parseTokens toks with
              | Option.some vals =>
                  iterYield { s with line_reader := lr, row_it := some vals }
              | Option.none =>
                  (.panic, { s with line_reader := lr, terminated := true })
          | (Option.some .ioError, lr) =>
              (.yield (.error .ioFailure),
               { s with line_reader := lr, terminated := true })
          | (Option.none, lr) =>
              (.stop, { s with line_reader := lr, terminated := true })

/-- `IntoIterator::into_iter` for the reader: fresh cursor over the data
lines, starting before row 0, column 0. -/
def EsriASCIIReader.intoIter (g : EsriASCIIReader) (seekFails : Bool) :
    EsriASCIIRasterIntoIterator :=
  { header := g.header,
    line_reader := .uninit seekFails g.data.lines,
    row_it := none, row := 0, col := 0, terminated := false }

/-- Drive the iterator for at most `fuel` calls, collecting the yielded items.
`some l` certifies that the iterator returned `None` (cleanly terminated)
after yielding exactly the items of `l`; `none` means the fuel ran out or a
call panicked. -/
def runIter : EsriASCIIRasterIntoIterator → ℕ → Option (List Item)
  | _, 0 => none
  | s, fuel + 1 =>
      match s.next with
      | (.stop, _) => some []
      | (.panic, _) => none
      | (.yield v, s2) => (runIter s2 fuel).map (v :: ·)

/-- The items yielded while consuming the values `vals` of (current) row `r`
starting at column `c`: the reported row index is `nrows - 1 - r`. -/
def rowItems (nrows r : ℕ) : ℕ → List ℚ → List Item
  | _, [] => []
  | c, v :: vs => .ok (nrows - 1 - r, c, v) :: rowItems nrows r (c + 1) vs

/-- The items the iterator is expected to yield for rows `r, r+1, …, r+m-1`,
where line `j` parses to the value list `vals j` (only the first `ncols`
values of each line are consumed). -/
def expectedRows (nrows ncols : ℕ) (vals : ℕ → List ℚ) : ℕ → ℕ → List Item
  | _, 0 => []
  | r, m + 1 =>
      rowItems nrows r 0 ((vals r).take ncols) ++ expectedRows nrows ncols vals (r + 1) m

/-- The (row, col) index pair carried by an `Ok` item. -/
def itemIdx : Item → ℕ × ℕ
  | .ok (r, c, _) => (r, c)
  | .error _ => (0, 0)

/-- Canonical enumeration of `{0..nrows-1} × {0..ncols-1}`, each pair once. -/
def allPairs (nrows ncols : ℕ) : List (ℕ × ℕ) :=
  (List.range nrows).flatMap (fun r => (List.range ncols).map (fun c => (r, c)))

/-! ## Concrete example grids (used by counterexamples and witnesses) -/

/-- A placeholder byte-offset assignment for the example files. -/
def exOffsets : ℕ → ℕ := fun j => 17 * j

/-- 2×2 grid, corner (0,0), cell size 1; data lines `1 2` and `3 4`. -/
def exGrid22 : EsriASCIIReader :=
  EsriASCIIReader.from_file (EsriASCIIRasterHeader.new 2 2 0 0 CornerType.corner 1 none)
    { lines := [.ok [some 1, some 2], .ok [some 3, some 4]], lineOffset := exOffsets }

/-- 1-row × 2-column grid; single data line `3 7`. -/
def exGrid12 : EsriASCIIReader :=
  EsriASCIIReader.from_file (EsriASCIIRasterHeader.new 2 1 0 0 CornerType.corner 1 none)
    { lines := [.ok [some 3, some 7]], lineOffset := exOffsets }

/-- 2×2 grid whose first data line is `1 1` and second `0 0`. -/
def exGridInterp : EsriASCIIReader :=
  EsriASCIIReader.from_file (EsriASCIIRasterHeader.new 2 2 0 0 CornerType.corner 1 none)
    { lines := [.ok [some 1, some 1], .ok [some 0, some 0]], lineOffset := exOffsets }

/-- 1-row × 2-column grid whose single data line has only one token, `5`. -/
def exGridShortLine : EsriASCIIReader :=
  EsriASCIIReader.from_file (EsriASCIIRasterHeader.new 2 1 0 0 CornerType.corner 1 none)
    { lines := [.ok [some 5]], lineOffset := exOffsets }

/-- 1×1 grid whose single data line has one token that fails to parse. -/
def exGridBadToken : EsriASCIIReader :=
  EsriASCIIReader.from_file (EsriASCIIRasterHeader.new 1 1 0 0 CornerType.corner 1 none)
    { lines := [.ok [none]], lineOffset := exOffsets }

/-- Grid declaring 2 rows while the file holds only one data line. -/
def exGridMissingLine : EsriASCIIReader :=
  EsriASCIIReader.from_file (EsriASCIIRasterHeader.new 1 2 0 0 CornerType.corner 1 none)
    { lines := [.ok [some 9]], lineOffset := exOffsets }

/-- 2×2 grid whose first data line carries a surplus third token. -/
def exGridSurplus : EsriASCIIReader :=
  EsriASCIIReader.from_file (EsriASCIIRasterHeader.new 2 2 0 0 CornerType.corner 1 none)
    { lines := [.ok [some 1, some 2, some 9], .ok [some 3, some 4]], lineOffset := exOffsets }

/-! ## Claim theorems -/

/-- Helper: the two anchor kinds are distinct (lets `simp` resolve the
normalization conditional at concrete anchor kinds). -/
theorem corner_eq_center_iff : (CornerType.corner = CornerType.center) ↔ False :=
  ⟨fun h => CornerType.noConfusion h, False.elim⟩

/-- C8: header construction normalizes anchoring to corner semantics: a
`Center` anchor shifts the stored origin by `-cellsize/2` on both axes, a
`Corner` anchor stores the declared origin unchanged; in both cases
`max_x = origin_x + cellsize * ncols` and `max_y = origin_y + cellsize * nrows`,
so two headers identical except for the anchor kind have bounds differing by
exactly `cellsize / 2` on each axis. -/
theorem c8_header_normalization (ncols nrows : ℕ) (x0 y0 cs : ℚ)
    (nd : Option ℚ) :
    ((EsriASCIIRasterHeader.new ncols nrows x0 y0 CornerType.center cs nd).xll
        = x0 - cs / 2 ∧
      (EsriASCIIRasterHeader.new ncols nrows x0 y0 CornerType.center cs nd).yll
        = y0 - cs / 2 ∧
      (EsriASCIIRasterHeader.new ncols nrows x0 y0 CornerType.corner cs nd).xll
        = x0 ∧
      (EsriASCIIRasterHeader.new ncols nrows x0 y0 CornerType.corner cs nd).yll
        = y0) ∧
    (∀ ct,
      (EsriASCIIRasterHeader.new ncols nrows x0 y0 ct cs nd).max_x
        = (EsriASCIIRasterHeader.new ncols nrows x0 y0 ct cs nd).xll + cs * ncols ∧
      (EsriASCIIRasterHeader.new ncols nrows x0 y0 ct cs nd).max_y
        = (EsriASCIIRasterHeader.new ncols nrows x0 y0 ct cs nd).yll + cs * nrows) ∧
    ((EsriASCIIRasterHeader.new ncols nrows x0 y0 CornerType.corner cs nd).min_x
        - (EsriASCIIRasterHeader.new ncols nrows x0 y0 CornerType.center cs nd).min_x
        = cs / 2 ∧
      (EsriASCIIRasterHeader.new ncols nrows x0 y0 CornerType.corner cs nd).min_y
        - (EsriASCIIRasterHeader.new ncols nrows x0 y0 CornerType.center cs nd).min_y
        = cs / 2 ∧
      (EsriASCIIRasterHeader.new ncols nrows x0 y0 CornerType.corner cs nd).max_x
        - (EsriASCIIRasterHeader.new ncols nrows x0 y0 CornerType.center cs nd).max_x
        = cs / 2 ∧
      (EsriASCIIRasterHeader.new ncols nrows x0 y0 CornerType.corner cs nd).max_y
        - (EsriASCIIRasterHeader.new ncols nrows x0 y0 CornerType.center cs nd).max_y
        = cs / 2) := by
  refine ⟨⟨rfl, rfl, rfl, rfl⟩, fun ct => ⟨rfl, rfl⟩, ?_, ?_, ?_, ?_⟩
  all_goals
    simp [EsriASCIIRasterHeader.new, EsriASCIIRasterHeader.max_x,
      EsriASCIIRasterHeader.max_y, EsriASCIIRasterHeader.min_x,
      EsriASCIIRasterHeader.min_y]

/-- C5: composing the two mapper functions is the identity: for every header
with positive cell size and the derived-bounds invariant, and every in-bounds
`(row, col)`, `index_of` applied to the coordinate returned by
`index_pos row col` returns `some (row, col)`. -/
theorem c5_roundtrip (h : EsriASCIIRasterHeader) (hcs : 0 < h.cellsize)
    (hx : h.xur = h.xll + h.cellsize * h.ncols)
    (hy : h.yur = h.yll + h.cellsize * h.nrows)
    (row col : ℕ) (hr : row < h.nrows) (hc : col < h.ncols) :
    (h.index_pos row col).bind (fun p => h.index_of p.1 p.2) = some (row, col) := by
  have hnb : ¬ (row ≥ h.nrows ∨ col ≥ h.ncols) := by omega
  rw [EsriASCIIRasterHeader.index_pos, if_neg hnb]
  simp only [Option.some_bind, EsriASCIIRasterHeader.min_x,
    EsriASCIIRasterHeader.max_y, EsriASCIIRasterHeader.cell_size]
  have hcolq : (col : ℚ) < (h.ncols : ℚ) := by exact_mod_cast hc
  have hrowq : (row : ℚ) + 1 ≤ (h.nrows : ℚ) := by exact_mod_cast hr
  have hx1 : h.xll ≤ h.xll + h.cellsize * col := by nlinarith
  have hx2 : h.xll + h.cellsize * col < h.xur := by nlinarith
  have hy2 : h.yur - h.cellsize * row - h.cellsize < h.yur := by nlinarith
  have hy1 : h.yll ≤ h.yur - h.cellsize * row - h.cellsize := by nlinarith
  unfold EsriASCIIRasterHeader.index_of
  rw [if_neg (by
    simp only [EsriASCIIRasterHeader.min_x, EsriASCIIRasterHeader.max_x,
      EsriASCIIRasterHeader.min_y, EsriASCIIRasterHeader.max_y, not_or, not_lt]
    exact ⟨hx1, hx2.le, hy1, hy2.le⟩)]
  simp only [EsriASCIIRasterHeader.min_x, EsriASCIIRasterHeader.max_x,
    EsriASCIIRasterHeader.min_y, EsriASCIIRasterHeader.max_y]
  rw [if_neg hx2.ne, if_neg hy2.ne]
  have e1 : (h.xll + h.cellsize * col - h.xll) / h.cellsize = ((col : ℤ) : ℚ) := by
    field_simp
  have e2 : (h.yur - h.cellsize * row - h.cellsize - h.yll) / h.cellsize
      = (((h.nrows : ℤ) - row - 1 : ℤ) : ℚ) := by
    rw [hy]; field_simp; ring
  rw [e1, e2, Int.floor_intCast, Int.floor_intCast]
  simp only [Option.some.injEq, Prod.mk.injEq]
  omega

/-- C5 witness: the round trip at a concrete header and concrete indices. -/
theorem c5_roundtrip_witness :
    ((EsriASCIIRasterHeader.new 4 6 0 0 CornerType.corner 50 none).index_pos 2 3).bind
        (fun p => (EsriASCIIRasterHeader.new 4 6 0 0 CornerType.corner 50 none).index_of p.1 p.2)
      = some (2, 3) :=
  c5_roundtrip (EsriASCIIRasterHeader.new 4 6 0 0 CornerType.corner 50 none)
    (by norm_num [EsriASCIIRasterHeader.new])
    (by norm_num [EsriASCIIRasterHeader.new])
    (by norm_num [EsriASCIIRasterHeader.new])
    2 3 (by norm_num [EsriASCIIRasterHeader.new]) (by norm_num [EsriASCIIRasterHeader.new])

/-- C4: for every coordinate inside `[min_x, max_x] × [min_y, max_y]`,
`index_of` returns `some (row, col)` with `row < nrows` and `col < ncols`;
`x = max_x` is attributed to the last valid column `ncols - 1` and `y = max_y`
to the boundary row `0` rather than one past it; and `index_of` returns `none`
whenever `x` or `y` lies strictly outside the bounds. -/
theorem c4_index_of_bounds (h : EsriASCIIRasterHeader) (hcs : 0 < h.cellsize)
    (hnr : 0 < h.nrows) (hnc : 0 < h.ncols)
    (hx : h.xur = h.xll + h.cellsize * h.ncols)
    (hy : h.yur = h.yll + h.cellsize * h.nrows) (x y : ℚ) :
    (h.min_x ≤ x ∧ x ≤ h.max_x ∧ h.min_y ≤ y ∧ y ≤ h.max_y →
      ∃ r c, h.index_of x y = some (r, c) ∧ r < h.nrows ∧ c < h.ncols ∧
        (x = h.max_x → c = h.ncols - 1) ∧ (y = h.max_y → r = 0)) ∧
    ((x < h.min_x ∨ x > h.max_x ∨ y < h.min_y ∨ y > h.max_y) →
      h.index_of x y = none) := by
  constructor
  · rintro ⟨hx1, hx2, hy1, hy2⟩
    unfold EsriASCIIRasterHeader.index_of
    rw [if_neg (by
      simp only [EsriASCIIRasterHeader.min_x, EsriASCIIRasterHeader.max_x,
        EsriASCIIRasterHeader.min_y, EsriASCIIRasterHeader.max_y,
        not_or, not_lt] at hx1 hx2 hy1 hy2 ⊢
      exact ⟨hx1, hx2, hy1, hy2⟩)]
    simp only [EsriASCIIRasterHeader.min_x, EsriASCIIRasterHeader.max_x,
      EsriASCIIRasterHeader.min_y, EsriASCIIRasterHeader.max_y] at hx1 hx2 hy1 hy2 ⊢
    have hcx : (0 : ℚ) ≤ h.cellsize * h.ncols := by positivity
    have hcy : (0 : ℚ) ≤ h.cellsize * h.nrows := by positivity
    -- the column value
    have hcol : ∀ hif : Decidable (x = h.xur),
        ((⌊if x = h.xur then (x - h.xll) / h.cellsize - 1
            else (x - h.xll) / h.cellsize⌋).toNat < h.ncols ∧
          (x = h.xur →
            (⌊if x = h.xur then (x - h.xll) / h.cellsize - 1
              else (x - h.xll) / h.cellsize⌋).toNat = h.ncols - 1)) := by
      intro hif
      by_cases hex : x = h.xur
      · rw [if_pos hex, hex, hx]
        have e : (h.xll + h.cellsize * h.ncols - h.xll) / h.cellsize - 1
            = (((h.ncols : ℤ) - 1 : ℤ) : ℚ) := by
          field_simp
        rw [e, Int.floor_intCast]
        constructor
        · omega
        · intro _; omega
      · rw [if_neg hex]
        have hlt : x < h.xur := lt_of_le_of_ne hx2 hex
        have hq1 : (0 : ℚ) ≤ (x - h.xll) / h.cellsize := by
          apply div_nonneg (by linarith) hcs.le
        have hq2 : (x - h.xll) / h.cellsize < (h.ncols : ℚ) := by
          rw [div_lt_iff₀ hcs]
          have : x - h.xll < h.cellsize * h.ncols := by rw [hx] at hlt; linarith
          linarith [this]
        have hfl : ⌊(x - h.xll) / h.cellsize⌋ < (h.ncols : ℤ) := by
          exact_mod_cast Int.floor_lt.2 (by exact_mod_cast hq2)
        constructor
        · omega
        · intro hcon; exact absurd hcon hex
    -- the row value
    have hrow : (y = h.yur →
        (⌊if y = h.yur then (y - h.yll) / h.cellsize - 1
          else (y - h.yll) / h.cellsize⌋).toNat = h.nrows - 1) := by
      intro hey
      rw [if_pos hey, hey, hy]
      have e : (h.yll + h.cellsize * h.nrows - h.yll) / h.cellsize - 1
          = (((h.nrows : ℤ) - 1 : ℤ) : ℚ) := by
        field_simp
      rw [e, Int.floor_intCast]
      omega
    refine ⟨_, _, rfl, ?_, (hcol (by infer_instance)).1, (hcol (by infer_instance)).2, ?_⟩
    · omega
    · intro hey
      rw [hrow hey]
      omega
  · intro hout
    unfold EsriASCIIRasterHeader.index_of
    rw [if_pos (by
      simp only [EsriASCIIRasterHeader.min_x, EsriASCIIRasterHeader.max_x,
        EsriASCIIRasterHeader.min_y, EsriASCIIRasterHeader.max_y] at hout
      exact hout)]

/-- C4 witness: a concrete header, one in-bounds point (the max corner, which
lands on row `0`, column `ncols - 1`) and one strictly-outside point. -/
theorem c4_index_of_bounds_witness :
    ((EsriASCIIRasterHeader.new 4 6 0 0 CornerType.corner 50 none).index_of 200 300
        = some (0, 3)) ∧
    ((EsriASCIIRasterHeader.new 4 6 0 0 CornerType.corner 50 none).index_of 250 300
        = none) := by
  have h1 := (c4_index_of_bounds (EsriASCIIRasterHeader.new 4 6 0 0 CornerType.corner 50 none)
    (by norm_num [EsriASCIIRasterHeader.new, corner_eq_center_iff])
    (by norm_num [EsriASCIIRasterHeader.new])
    (by norm_num [EsriASCIIRasterHeader.new])
    (by norm_num [EsriASCIIRasterHeader.new, corner_eq_center_iff])
    (by norm_num [EsriASCIIRasterHeader.new, corner_eq_center_iff]) 200 300).1
    (by norm_num [EsriASCIIRasterHeader.new, corner_eq_center_iff,
      EsriASCIIRasterHeader.min_x, EsriASCIIRasterHeader.max_x,
      EsriASCIIRasterHeader.min_y, EsriASCIIRasterHeader.max_y])
  have h2 := (c4_index_of_bounds (EsriASCIIRasterHeader.new 4 6 0 0 CornerType.corner 50 none)
    (by norm_num [EsriASCIIRasterHeader.new, corner_eq_center_iff])
    (by norm_num [EsriASCIIRasterHeader.new])
    (by norm_num [EsriASCIIRasterHeader.new])
    (by norm_num [EsriASCIIRasterHeader.new, corner_eq_center_iff])
    (by norm_num [EsriASCIIRasterHeader.new, corner_eq_center_iff]) 250 300).2
    (by norm_num [EsriASCIIRasterHeader.new, corner_eq_center_iff,
      EsriASCIIRasterHeader.min_x, EsriASCIIRasterHeader.max_x,
      EsriASCIIRasterHeader.min_y, EsriASCIIRasterHeader.max_y])
  obtain ⟨r, c, heq, hrlt, hclt, hxc, hyr⟩ := h1
  have hc3 : c = 3 := hxc (by
    norm_num [EsriASCIIRasterHeader.new, corner_eq_center_iff,
      EsriASCIIRasterHeader.max_x])
  have hr0 : r = 0 := hyr (by
    norm_num [EsriASCIIRasterHeader.new, corner_eq_center_iff,
      EsriASCIIRasterHeader.max_y])
  rw [hc3, hr0] at heq
  exact ⟨heq, h2⟩

/-- C1 (counterexample evaluation): the claim says `get (x, y)` returns the
value of `get_index (row, col)` for the indices `(row, col)` returned by
`index_of`, and that `get` succeeds at all four corners of every valid grid.
The source instead destructures the pair as `(col, row)`, transposing the
indices: on `exGrid22`, `index_of (0, 0) = some (1, 0)` but
`get (0, 0)` returns the value of `get_index (0, 1)` (`4`) instead of the
value of `get_index (1, 0)` (`1`); and on the non-square `exGrid12` the call
at the corner `(max_x, max_y) = (2, 1)` panics (the swapped row index `1` is
out of bounds and the internal `unwrap` fires). -/
theorem c1_get_code_bug :
    exGrid22.header.index_of 0 0 = some (1, 0) ∧
    exGrid22.get 0 0 = .some 4 ∧
    exGrid22.get_index 1 0 = .ok 1 ∧
    exGrid12.get 2 1 = .panicked := by
  refine ⟨?_, ?_, rfl, ?_⟩
  · norm_num [exGrid22, EsriASCIIReader.from_file, EsriASCIIRasterHeader.index_of,
      EsriASCIIRasterHeader.new, EsriASCIIRasterHeader.min_x,
      EsriASCIIRasterHeader.max_x, EsriASCIIRasterHeader.min_y,
      EsriASCIIRasterHeader.max_y, corner_eq_center_iff]
  · norm_num [exGrid22, EsriASCIIReader.from_file, EsriASCIIReader.get,
      EsriASCIIReader.get_index, EsriASCIIRasterHeader.index_of,
      EsriASCIIRasterHeader.new, EsriASCIIRasterHeader.min_x,
      EsriASCIIRasterHeader.max_x, EsriASCIIRasterHeader.min_y,
      EsriASCIIRasterHeader.max_y, corner_eq_center_iff, parseTokens]
  · norm_num [exGrid12, EsriASCIIReader.from_file, EsriASCIIReader.get,
      EsriASCIIReader.get_index, EsriASCIIRasterHeader.index_of,
      EsriASCIIRasterHeader.new, EsriASCIIRasterHeader.min_x,
      EsriASCIIRasterHeader.max_x, EsriASCIIRasterHeader.min_y,
      EsriASCIIRasterHeader.max_y, corner_eq_center_iff, parseTokens]

/-- C2 (counterexample evaluation): the claim says an `Err` item is yielded
exactly once, every later `next()` returns `None`, and no call panics.  On
`exGridShortLine` (header declares 2 columns, the data line has one value)
the iterator yields the one `Ok` item, then `Err (MismatchColumnCount 2 1)`,
and — because the source never sets `terminated` in that arm — the very next
call yields the same `Err` again instead of `None`.  On `exGridBadToken` the
first call to `next()` panics (the source builds `Some(Err(..))` for the
parse failure without returning it and then `unwrap`s `row_it == None`). -/
theorem c2_iterator_code_bug :
    ((exGridShortLine.intoIter false).next).1 = .yield (.ok (0, 0, 5)) ∧
    ((((exGridShortLine.intoIter false).next).2.next).1
      = .yield (.error (.MismatchColumnCount 2 1))) ∧
    (((((exGridShortLine.intoIter false).next).2.next).2.next).1
      = .yield (.error (.MismatchColumnCount 2 1))) ∧
    ((exGridBadToken.intoIter false).next).1 = .panic :=
  ⟨rfl, rfl, rfl, rfl⟩

/-- C3 (counterexample evaluation): the claim says `get_interpolate` returns
the bilinear blend of the four neighbours of the cell containing `(x, y)`
with fractional offsets, so at the exact corner `(min_x, min_y)` it must
equal the corner cell's value.  On `exGridInterp` the corner cell value is
`get_index 1 0 = 1` (the bottom row is the first data line), but the source
computes `ll_row` counting from the bottom while `index_pos`/`get_index`
count rows from the top: at `(0, 0)` it blends the wrong cells with offset
`v = -1` and returns `-1` instead of `1`. -/
theorem c3_interpolate_code_bug :
    exGridInterp.get_interpolate 0 0 = .some (-1) ∧
    exGridInterp.get_index 1 0 = .ok 1 := by
  refine ⟨?_, rfl⟩
  norm_num [exGridInterp, EsriASCIIReader.from_file, EsriASCIIReader.get_interpolate,
    EsriASCIIReader.get_index, EsriASCIIRasterHeader.index_pos,
    EsriASCIIRasterHeader.new, EsriASCIIRasterHeader.min_x,
    EsriASCIIRasterHeader.max_x, EsriASCIIRasterHeader.min_y,
    EsriASCIIRasterHeader.max_y, EsriASCIIRasterHeader.cell_size,
    corner_eq_center_iff, parseTokens]

/-- C6 (counterexample evaluation): the claim says in-bounds `get_index`
returns a `MismatchColumnCount` error when the data line's token count
differs from `ncols`, a `TypeCast`/parse error for a non-parseable token, and
never panics; out-of-bounds indices return `OutOfBounds`.  The out-of-bounds
part holds, but the source parses each token with `s.parse().unwrap()` and
indexes `values[col]` without a length check, so both data problems panic
instead of returning errors: on `exGridShortLine` (2 declared columns, one
value on the line) `get_index 0 1` panics, and on `exGridBadToken`
`get_index 0 0` panics. -/
theorem c6_get_index_code_bug :
    exGridShortLine.get_index 0 1 = .panicked ∧
    exGridBadToken.get_index 0 0 = .panicked ∧
    exGridShortLine.get_index 1 0 = .err (.OutOfBounds 1 0) ∧
    exGridShortLine.get_index 0 2 = .err (.OutOfBounds 0 2) :=
  ⟨rfl, rfl, rfl, rfl⟩

/-- Helper: the `build_index` loop succeeds when enough data lines remain,
filling entries `0, …, r-1` with the offsets of the lines it scans (row `i`
gets line `j + (r - 1 - i)`) and leaving all other entries unchanged. -/
theorem buildIndexLoop_ok (d : DataFile) (numRows : ℕ) :
    ∀ r j cache, j + r ≤ d.lines.length →
      ∃ c2, buildIndexLoop d numRows r j cache = .ok c2 ∧
        c2.length = cache.length ∧
        (∀ i, i < r → c2[i]? = (cache.set i (some (d.lineOffset (j + (r - 1 - i)))))[i]?) ∧
        (∀ i, r ≤ i → c2[i]? = cache[i]?) := by
  intro r
  induction r with
  | zero =>
      intro j cache _
      exact ⟨cache, rfl, rfl, fun i hi => absurd hi (by omega), fun i _ => rfl⟩
  | succ r ih =>
      intro j cache h1
      have hjlt : j < d.lines.length := by omega
      rw [buildIndexLoop, if_pos hjlt]
      obtain ⟨c2, heq, hlen, hin, hout⟩ :=
        ih (j + 1) (cache.set r (some (d.lineOffset j))) (by omega)
      refine ⟨c2, heq, by simpa using hlen, ?_, ?_⟩
      · intro i hi
        rcases Nat.lt_or_ge i r with hir | hir
        · rw [hin i hir]
          rcases Nat.lt_or_ge i cache.length with hic | hic
          · rw [List.getElem?_set_self (by simpa using hic),
              List.getElem?_set_self (by simpa using hic)]
            have e : j + 1 + (r - 1 - i) = j + (r + 1 - 1 - i) := by omega
            rw [e]
          · rw [List.getElem?_eq_none (by simpa using hic),
              List.getElem?_eq_none (by simpa using hic)]
        · have hieq : i = r := by omega
          subst hieq
          rw [hout i le_rfl]
          rcases Nat.lt_or_ge i cache.length with hic | hic
          · rw [List.getElem?_set_self (by simpa using hic),
              List.getElem?_set_self (by simpa using hic)]
            have e : j = j + (i + 1 - 1 - i) := by omega
            rw [← e]
          · rw [List.getElem?_eq_none (by simpa using hic),
              List.getElem?_eq_none (by simpa using hic)]
      · intro i hi
        rw [hout i (by omega), List.getElem?_set_ne (by omega)]

/-- Helper: the `build_index` loop fails with `MismatchedRowCount` when the
data lines run out before the countdown does. -/
theorem buildIndexLoop_err (d : DataFile) (numRows : ℕ) :
    ∀ r j cache, j ≤ d.lines.length → d.lines.length < j + r →
      buildIndexLoop d numRows r j cache
        = .error (.MismatchedRowCount numRows (j + r - 1 - d.lines.length)) := by
  intro r
  induction r with
  | zero => intro j cache h1 h2; omega
  | succ r ih =>
      intro j cache h1 h2
      by_cases hj : j < d.lines.length
      · rw [buildIndexLoop, if_pos hj, ih (j + 1) _ (by omega) (by omega)]
        have e : j + 1 + r - 1 - d.lines.length = j + (r + 1) - 1 - d.lines.length := by
          omega
        rw [e]
      · rw [buildIndexLoop, if_neg hj]
        have e : j + (r + 1) - 1 - d.lines.length = r := by omega
        rw [e]

/-- C9: after a successful `build_index`, the line-offset cache holds a
`some` byte offset for every row in `[0, nrows)` (row `r` gets the offset of
data line `nrows - 1 - r`) while the parsed-row value cache is exactly the
same as before the call; if the file holds fewer data lines than `nrows`,
`build_index` returns a `MismatchedRowCount` error. -/
theorem c9_build_index (g : EsriASCIIReader) :
    (g.header.nrows ≤ g.data.lines.length →
      ∃ g2, g.build_index = .ok g2 ∧
        (∀ r, r < g.header.nrows →
          g2.line_start_cache[r]?
            = some (some (g.data.lineOffset (g.header.nrows - 1 - r)))) ∧
        g2.line_cache = g.line_cache) ∧
    (g.data.lines.length < g.header.nrows →
      ∃ n k, g.build_index = .error (.MismatchedRowCount n k)) := by
  constructor
  · intro hle
    obtain ⟨c2, heq, hlen, hin, hout⟩ :=
      buildIndexLoop_ok g.data g.header.nrows g.header.nrows 0
        (List.replicate g.header.nrows none) (by omega)
    refine ⟨{ g with line_start_cache := c2 }, ?_, ?_, rfl⟩
    · rw [EsriASCIIReader.build_index]
      rw [EsriASCIIRasterHeader.num_rows, heq]
      rfl
    · intro r hr
      have := hin r hr
      rw [List.getElem?_set_self (by simpa using hr)] at this
      simpa using this
  · intro hlt
    refine ⟨g.header.nrows, g.header.nrows - 1 - g.data.lines.length, ?_⟩
    rw [EsriASCIIReader.build_index, EsriASCIIRasterHeader.num_rows,
      buildIndexLoop_err g.data g.header.nrows g.header.nrows 0
        (List.replicate g.header.nrows none) (by omega) (by omega)]
    have e : 0 + g.header.nrows - 1 - g.data.lines.length
        = g.header.nrows - 1 - g.data.lines.length := by omega
    rw [e]
    rfl

/-- C9 witness: `build_index` on a concrete complete grid succeeds with all
offsets cached and the value cache untouched, and on a concrete grid with a
missing data line it fails with `MismatchedRowCount`. -/
theorem c9_build_index_witness :
    (∃ g2, exGrid22.build_index = .ok g2 ∧
      (∀ r, r < exGrid22.header.nrows →
        g2.line_start_cache[r]?
          = some (some (exGrid22.data.lineOffset (exGrid22.header.nrows - 1 - r)))) ∧
      g2.line_cache = exGrid22.line_cache) ∧
    (∃ n k, exGridMissingLine.build_index = .error (.MismatchedRowCount n k)) :=
  ⟨(c9_build_index exGrid22).1 (by decide),
   (c9_build_index exGridMissingLine).2 (by decide)⟩

/-- Helper: one `next()` call mid-row yields the head value of the loaded row
and advances the column counter. -/
theorem next_midRow (hdr : EsriASCIIRasterHeader) (rest : List LineRead)
    (vs : List ℚ) (v : ℚ) (r c : ℕ) (hc : ¬ hdr.ncols ≤ c) :
    EsriASCIIRasterIntoIterator.next
        ⟨hdr, .initialized rest, some (v :: vs), r, c, false⟩
      = (.yield (.ok (hdr.nrows - 1 - r, c, v)),
         ⟨hdr, .initialized rest, some vs, r, c + 1, false⟩) := by
  simp [EsriASCIIRasterIntoIterator.next, iterYield, hc]

/-- Helper: a `next()` call at a finished row with no rows left terminates. -/
theorem next_rollStop (hdr : EsriASCIIRasterHeader) (rest : List LineRead)
    (junk : Option (List ℚ)) (r c : ℕ) (hc : hdr.ncols ≤ c)
    (hr : hdr.nrows ≤ r + 1) :
    (EsriASCIIRasterIntoIterator.next
        ⟨hdr, .initialized rest, junk, r, c, false⟩).1 = .stop := by
  simp [EsriASCIIRasterIntoIterator.next, hc, hr]

/-- Helper: a `next()` call at a finished row with rows left discards the
surplus of the finished row, loads the next line and immediately yields its
first value at column `0`. -/
theorem next_rollLoad (hdr : EsriASCIIRasterHeader) (toks : List Token)
    (rest : List LineRead) (junk : Option (List ℚ)) (v : ℚ) (vs2 : List ℚ)
    (r c : ℕ) (hc : hdr.ncols ≤ c) (hr : ¬ hdr.nrows ≤ r + 1)
    (hp : parseTokens toks = some (v :: vs2)) :
    EsriASCIIRasterIntoIterator.next
        ⟨hdr, .initialized (LineRead.ok toks :: rest), junk, r, c, false⟩
      = (.yield (.ok (hdr.nrows - 1 - (r + 1), 0, v)),
         ⟨hdr, .initialized rest, some vs2, r + 1, 1, false⟩) := by
  simp [EsriASCIIRasterIntoIterator.next, iterYield, LineReader.next, hc, hr, hp]

/-- Helper: the first `next()` call on a fresh iterator seeks to the data
start, loads the first line and yields its first value at row counter `0`,
column `0`. -/
theorem next_start (hdr : EsriASCIIRasterHeader) (toks : List Token)
    (rest : List LineRead) (v : ℚ) (vs2 : List ℚ) (hnc : ¬ hdr.ncols ≤ 0)
    (hp : parseTokens toks = some (v :: vs2)) :
    EsriASCIIRasterIntoIterator.next
        ⟨hdr, .uninit false (LineRead.ok toks :: rest), none, 0, 0, false⟩
      = (.yield (.ok (hdr.nrows - 1 - 0, 0, v)),
         ⟨hdr, .initialized rest, some vs2, 0, 1, false⟩) := by
  simp [EsriASCIIRasterIntoIterator.next, iterYield, LineReader.next, hnc, hp]

/-- Helper: unfolding one `runIter` step on a yielding state. -/
theorem runIter_yield_step (s s2 : EsriASCIIRasterIntoIterator) (v : Item)
    (fuel : ℕ) (h : s.next = (.yield v, s2)) :
    runIter s (fuel + 1) = (runIter s2 fuel).map (v :: ·) := by
  rw [runIter, h]

/-- Helper: unfolding one `runIter` step on a stopping state. -/
theorem runIter_stop_step (s : EsriASCIIRasterIntoIterator) (fuel : ℕ)
    (h : (s.next).1 = .stop) :
    runIter s (fuel + 1) = some [] := by
  rw [runIter]
  rcases he : s.next with ⟨res, s2⟩
  rw [he] at h
  simp only at h
  subst h
  rfl

/-- Helper: consuming the remaining `k` columns of the current row yields its
values in order and leaves the iterator at the end-of-row state. -/
theorem runIter_consume (hdr : EsriASCIIRasterHeader) (rest : List LineRead)
    (r : ℕ) :
    ∀ k c (vs : List ℚ) fuel, c + k = hdr.ncols → k ≤ vs.length →
      runIter ⟨hdr, .initialized rest, some vs, r, c, false⟩ (k + fuel)
        = (runIter ⟨hdr, .initialized rest, some (vs.drop k), r, hdr.ncols, false⟩
              fuel).map
            (fun l => rowItems hdr.nrows r c (vs.take k) ++ l) := by
  intro k
  induction k with
  | zero =>
      intro c vs fuel hck _
      subst hck
      simp [rowItems]
  | succ k ih =>
      intro c vs fuel hck hk
      match vs with
      | [] => simp at hk
      | v :: vs =>
          have hc : ¬ hdr.ncols ≤ c := by omega
          have e : k + 1 + fuel = (k + fuel) + 1 := by omega
          rw [e, runIter_yield_step _ _ _ _ (next_midRow hdr rest vs v r c hc),
            ih (c + 1) vs fuel (by omega) (by simpa using hk)]
          simp only [List.drop_succ_cons, List.take_succ_cons, rowItems,
            Option.map_map]
          rfl

/-- Helper: the first `n` values of a nonempty row, as yielded items. -/
theorem rowItems_take_cons (nrows r2 n : ℕ) (v : ℚ) (vs2 : List ℚ)
    (hn : 0 < n) :
    rowItems nrows r2 0 ((v :: vs2).take n)
      = .ok (nrows - 1 - r2, 0, v) :: rowItems nrows r2 1 (vs2.take (n - 1)) := by
  match n, hn with
  | n + 1, _ => simp [List.take_succ_cons, rowItems]

/-- Helper: from an end-of-row state (current row `r` finished, `m` rows
remaining in a file whose next `m` lines parse to at least `ncols` values
each), the iterator yields exactly the first `ncols` values of each remaining
row and then terminates cleanly. -/
theorem runIter_fromRollover (hdr : EsriASCIIRasterHeader)
    (vals : ℕ → List ℚ) (hnc : 0 < hdr.ncols) :
    ∀ m r c (junk : Option (List ℚ)) (rest : List LineRead) fuel,
      hdr.ncols ≤ c → r + 1 + m = hdr.nrows →
      (∀ i, i < m → ∃ toks, rest[i]? = some (.ok toks) ∧
          parseTokens toks = some (vals (r + 1 + i)) ∧
          hdr.ncols ≤ (vals (r + 1 + i)).length) →
      runIter ⟨hdr, .initialized rest, junk, r, c, false⟩
          (m * hdr.ncols + (fuel + 1))
        = some (expectedRows hdr.nrows hdr.ncols vals (r + 1) m) := by
  intro m
  induction m with
  | zero =>
      intro r c junk rest fuel hc hm _
      rw [Nat.zero_mul, Nat.zero_add,
        runIter_stop_step _ _ (next_rollStop hdr rest junk r c hc (by omega))]
      rfl
  | succ m ih =>
      intro r c junk rest fuel hc hm hlines
      obtain ⟨toks, hget, hp, hlen⟩ := hlines 0 (by omega)
      match rest with
      | [] => simp at hget
      | l :: rest =>
          simp only [List.getElem?_cons_zero, Option.some.injEq] at hget
          subst hget
          match hv : vals (r + 1 + 0) with
          | [] => rw [hv] at hlen; simp at hlen; omega
          | v :: vs2 =>
              rw [hv] at hp hlen
              have hr1 : ¬ hdr.nrows ≤ r + 1 := by omega
              have e : (m + 1) * hdr.ncols + (fuel + 1)
                  = (((hdr.ncols - 1) + (m * hdr.ncols + (fuel + 1))) + 1) := by
                have h1 : (m + 1) * hdr.ncols = m * hdr.ncols + hdr.ncols := by ring
                rw [h1]
                generalize m * hdr.ncols = A
                omega
              rw [e, runIter_yield_step _ _ _ _
                  (next_rollLoad hdr toks rest junk v vs2 r c hc hr1 hp),
                runIter_consume hdr rest (r + 1) (hdr.ncols - 1) 1 vs2
                  (m * hdr.ncols + (fuel + 1)) (by omega) (by
                    simp only [List.length_cons] at hlen; omega),
                ih (r + 1) hdr.ncols (some (vs2.drop (hdr.ncols - 1))) rest fuel
                  le_rfl (by omega) (fun i hi => by
                    obtain ⟨toks2, hg2, hp2, hl2⟩ := hlines (i + 1) (by omega)
                    refine ⟨toks2, ?_, ?_, ?_⟩
                    · simpa using hg2
                    · have eidx : r + 1 + (i + 1) = r + 1 + 1 + i := by omega
                      rw [eidx] at hp2
                      exact hp2
                    · have eidx : r + 1 + (i + 1) = r + 1 + 1 + i := by omega
                      rw [eidx] at hl2
                      exact hl2)]
              have hv2 : vals (r + 1) = v :: vs2 := by simpa using hv
              simp only [Option.map_some']
              rw [expectedRows, hv2,
                rowItems_take_cons hdr.nrows (r + 1) hdr.ncols v vs2 hnc]
              simp [List.cons_append]

/-- Helper: a fresh iterator over a file whose first `nrows` lines each parse
to at least `ncols` values yields exactly the first `ncols` values of every
row, in file order, and then terminates cleanly. -/
theorem runIter_start (hdr : EsriASCIIRasterHeader) (vals : ℕ → List ℚ)
    (lines : List LineRead) (hnc : 0 < hdr.ncols) (hnr : 0 < hdr.nrows)
    (h : ∀ i, i < hdr.nrows → ∃ toks, lines[i]? = some (.ok toks) ∧
        parseTokens toks = some (vals i) ∧ hdr.ncols ≤ (vals i).length)
    (fuel : ℕ) :
    runIter ⟨hdr, .uninit false lines, none, 0, 0, false⟩
        (hdr.nrows * hdr.ncols + (fuel + 1))
      = some (expectedRows hdr.nrows hdr.ncols vals 0 hdr.nrows) := by
  obtain ⟨toks, hget, hp, hlen⟩ := h 0 hnr
  match lines with
  | [] => simp at hget
  | l :: rest =>
      simp only [List.getElem?_cons_zero, Option.some.injEq] at hget
      subst hget
      match hv : vals 0 with
      | [] => rw [hv] at hlen; simp at hlen; omega
      | v :: vs2 =>
          rw [hv] at hp hlen
          have e : hdr.nrows * hdr.ncols + (fuel + 1)
              = (((hdr.ncols - 1) + ((hdr.nrows - 1) * hdr.ncols + (fuel + 1))) + 1) := by
            have h1 : hdr.nrows * hdr.ncols
                = (hdr.nrows - 1) * hdr.ncols + hdr.ncols := by
              have h2 : hdr.nrows = (hdr.nrows - 1) + 1 := by omega
              calc hdr.nrows * hdr.ncols = ((hdr.nrows - 1) + 1) * hdr.ncols := by rw [← h2]
                _ = (hdr.nrows - 1) * hdr.ncols + hdr.ncols := by ring
            rw [h1]
            generalize (hdr.nrows - 1) * hdr.ncols = A
            omega
          rw [e, runIter_yield_step _ _ _ _
              (next_start hdr toks rest v vs2 (by omega) hp),
            runIter_consume hdr rest 0 (hdr.ncols - 1) 1 vs2
              ((hdr.nrows - 1) * hdr.ncols + (fuel + 1)) (by omega) (by
                simp only [List.length_cons] at hlen; omega),
            runIter_fromRollover hdr vals hnc (hdr.nrows - 1) 0 hdr.ncols
              (some (vs2.drop (hdr.ncols - 1))) rest fuel le_rfl (by omega)
              (fun i hi => by
                obtain ⟨toks2, hg2, hp2, hl2⟩ := h (i + 1) (by omega)
                refine ⟨toks2, by simpa using hg2, ?_, ?_⟩
                · have eidx : i + 1 = 0 + 1 + i := by omega
                  rw [eidx] at hp2
                  exact hp2
                · have eidx : i + 1 = 0 + 1 + i := by omega
                  rw [eidx] at hl2
                  exact hl2)]
          have hv2 : vals 0 = v :: vs2 := hv
          simp only [Option.map_some']
          obtain ⟨m, hm⟩ : ∃ m, hdr.nrows = m + 1 := ⟨hdr.nrows - 1, by omega⟩
          rw [hm]
          simp only [Nat.add_sub_cancel]
          rw [expectedRows, hv2,
            rowItems_take_cons (m + 1) 0 hdr.ncols v vs2 hnc]
          simp [List.cons_append]

/-- Helper: a row's worth of items has one item per value. -/
theorem rowItems_length (nrows r : ℕ) :
    ∀ (vs : List ℚ) c, (rowItems nrows r c vs).length = vs.length := by
  intro vs
  induction vs with
  | nil => intro c; rfl
  | cons v vs ih => intro c; simp [rowItems, ih (c + 1)]

/-- Helper: every item of a row is an `Ok` item. -/
theorem rowItems_all_ok (nrows r : ℕ) :
    ∀ (vs : List ℚ) c it, it ∈ rowItems nrows r c vs →
      ∃ rr cc v, it = Except.ok (rr, cc, v) := by
  intro vs
  induction vs with
  | nil => intro c it hit; simp [rowItems] at hit
  | cons v vs ih =>
      intro c it hit
      rw [rowItems] at hit
      rcases List.mem_cons.1 hit with heq | htail
      · exact ⟨_, _, _, heq⟩
      · exact ih (c + 1) it htail

/-- Helper: the index pairs of a row's items are row `nrows - 1 - r` paired
with the consecutive columns. -/
theorem rowItems_map_idx (nrows r : ℕ) :
    ∀ (vs : List ℚ) c, (rowItems nrows r c vs).map itemIdx
      = (List.range' c vs.length).map (fun cc => (nrows - 1 - r, cc)) := by
  intro vs
  induction vs with
  | nil => intro c; rfl
  | cons v vs ih =>
      intro c
      rw [rowItems, List.length_cons, List.range'_succ]
      simp only [List.map_cons, ih (c + 1)]
      rfl

/-- Helper: the full expected output has `m * ncols` items. -/
theorem expectedRows_length (nrows ncols : ℕ) (vals : ℕ → List ℚ) :
    ∀ m r, (∀ i, r ≤ i → i < r + m → ncols ≤ (vals i).length) →
      (expectedRows nrows ncols vals r m).length = m * ncols := by
  intro m
  induction m with
  | zero => intro r _; simp [expectedRows]
  | succ m ih =>
      intro r h
      rw [expectedRows, List.length_append, rowItems_length,
        List.length_take, Nat.min_eq_left (h r le_rfl (by omega)),
        ih (r + 1) (fun i h1 h2 => h i (by omega) (by omega))]
      ring

/-- Helper: every item of the expected output is an `Ok` item. -/
theorem expectedRows_all_ok (nrows ncols : ℕ) (vals : ℕ → List ℚ) :
    ∀ m r it, it ∈ expectedRows nrows ncols vals r m →
      ∃ rr cc v, it = Except.ok (rr, cc, v) := by
  intro m
  induction m with
  | zero => intro r it hit; simp [expectedRows] at hit
  | succ m ih =>
      intro r it hit
      rw [expectedRows] at hit
      rcases List.mem_append.1 hit with hrow | htail
      · exact rowItems_all_ok nrows r _ 0 it hrow
      · exact ih (r + 1) it htail

/-- Helper: the index pairs of the expected output, row by row. -/
theorem expectedRows_map_idx (nrows ncols : ℕ) (vals : ℕ → List ℚ) :
    ∀ m r, (∀ i, r ≤ i → i < r + m → ncols ≤ (vals i).length) →
      (expectedRows nrows ncols vals r m).map itemIdx
        = (List.range' r m).flatMap
            (fun j => (List.range ncols).map (fun cc => (nrows - 1 - j, cc))) := by
  intro m
  induction m with
  | zero => intro r _; rfl
  | succ m ih =>
      intro r h
      rw [expectedRows, List.map_append, rowItems_map_idx,
        List.length_take, Nat.min_eq_left (h r le_rfl (by omega)),
        List.range'_succ, List.flatMap_cons,
        ih (r + 1) (fun i h1 h2 => h i (by omega) (by omega)),
        List.range_eq_range']

/-- Helper: listing the pairs with the row index flipped (`nrows - 1 - j`) is
a permutation of the canonical enumeration of all pairs. -/
theorem flipped_pairs_perm (nrows ncols : ℕ) :
    ((List.range' 0 nrows).flatMap
        (fun j => (List.range ncols).map (fun cc => (nrows - 1 - j, cc)))).Perm
      (allPairs nrows ncols) := by
  rw [allPairs, ← List.range_eq_range']
  have hmap : (List.range nrows).map (fun j => nrows - 1 - j)
      = (List.range nrows).reverse := by
    have hrev := List.reverse_range' 0 nrows
    rw [← List.range_eq_range'] at hrev
    rw [hrev]
    simp
  have hflat : (List.range nrows).flatMap
      (fun j => (List.range ncols).map (fun cc => (nrows - 1 - j, cc)))
      = ((List.range nrows).map (fun j => nrows - 1 - j)).flatMap
          (fun rr => (List.range ncols).map (fun cc => (rr, cc))) := by
    rw [List.flatMap_map]
  rw [hflat, hmap]
  exact List.Perm.flatMap_right _ (List.reverse_perm _)

/-- C7: for every grid whose data section is well-formed (the first `nrows`
lines each parse to exactly `ncols` numeric values), the consuming iterator
terminates cleanly after yielding exactly `nrows * ncols` items, every item
is `Ok`, and the `(row, col)` index pairs carried by the items are exactly
`{0..nrows-1} × {0..ncols-1}`, each pair occurring exactly once (their list
is a permutation of the canonical enumeration `allPairs`). -/
theorem c7_iteration_complete (g : EsriASCIIReader) (vals : ℕ → List ℚ)
    (hnc : 0 < g.header.ncols) (hnr : 0 < g.header.nrows)
    (h : ∀ i, i < g.header.nrows → ∃ toks, g.data.lines[i]? = some (.ok toks) ∧
        parseTokens toks = some (vals i) ∧ (vals i).length = g.header.ncols) :
    ∃ out, runIter (g.intoIter false) (g.header.nrows * g.header.ncols + 1)
        = some out ∧
      out.length = g.header.nrows * g.header.ncols ∧
      (∀ it ∈ out, ∃ r c v, it = Except.ok (r, c, v)) ∧
      (out.map itemIdx).Perm (allPairs g.header.nrows g.header.ncols) := by
  have h2 : ∀ i, i < g.header.nrows → ∃ toks, g.data.lines[i]? = some (.ok toks) ∧
      parseTokens toks = some (vals i) ∧ g.header.ncols ≤ (vals i).length := by
    intro i hi
    obtain ⟨t, ha, hb, hc⟩ := h i hi
    exact ⟨t, ha, hb, le_of_eq hc.symm⟩
  have hlen : ∀ i, 0 ≤ i → i < 0 + g.header.nrows →
      g.header.ncols ≤ (vals i).length := by
    intro i _ hi
    obtain ⟨t, _, _, hc⟩ := h i (by omega)
    omega
  refine ⟨expectedRows g.header.nrows g.header.ncols vals 0 g.header.nrows,
    runIter_start g.header vals g.data.lines hnc hnr h2 0, ?_, ?_, ?_⟩
  · exact expectedRows_length _ _ _ _ 0 hlen
  · exact fun it => expectedRows_all_ok _ _ _ _ 0 it
  · rw [expectedRows_map_idx _ _ _ _ 0 hlen]
    exact flipped_pairs_perm _ _

/-- C7 witness: the complete 2×2 grid `exGrid22` iterates to exactly its
four `Ok` items with each index pair exactly once. -/
theorem c7_iteration_complete_witness :
    ∃ out, runIter (exGrid22.intoIter false)
        (exGrid22.header.nrows * exGrid22.header.ncols + 1) = some out ∧
      out.length = exGrid22.header.nrows * exGrid22.header.ncols ∧
      (∀ it ∈ out, ∃ r c v, it = Except.ok (r, c, v)) ∧
      (out.map itemIdx).Perm (allPairs exGrid22.header.nrows exGrid22.header.ncols) :=
  c7_iteration_complete exGrid22 (fun i => if i = 0 then [1, 2] else [3, 4])
    (by decide) (by decide)
    (by
      intro i hi
      have hi2 : i < 2 := hi
      interval_cases i
      · exact ⟨[some 1, some 2], rfl, rfl, rfl⟩
      · exact ⟨[some 3, some 4], rfl, rfl, rfl⟩)

/-- C10: when a data line holds more than `ncols` parseable tokens (and every
line holds at least `ncols`), the iterator still terminates cleanly with only
`Ok` items — `nrows * ncols` of them, the first `ncols` values of each line
(`expectedRows` takes `List.take ncols` of each row) — silently discarding
the surplus tokens and never yielding an error for that line. -/
theorem c10_surplus_tokens (g : EsriASCIIReader) (vals : ℕ → List ℚ)
    (hnc : 0 < g.header.ncols) (hnr : 0 < g.header.nrows)
    (h : ∀ i, i < g.header.nrows → ∃ toks, g.data.lines[i]? = some (.ok toks) ∧
        parseTokens toks = some (vals i) ∧ g.header.ncols ≤ (vals i).length)
    (jstar : ℕ) (_hjs : jstar < g.header.nrows)
    (_hsurplus : g.header.ncols < (vals jstar).length) :
    runIter (g.intoIter false) (g.header.nrows * g.header.ncols + 1)
      = some (expectedRows g.header.nrows g.header.ncols vals 0 g.header.nrows) ∧
    (∀ it ∈ expectedRows g.header.nrows g.header.ncols vals 0 g.header.nrows,
      ∃ r c v, it = Except.ok (r, c, v)) ∧
    (expectedRows g.header.nrows g.header.ncols vals 0 g.header.nrows).length
      = g.header.nrows * g.header.ncols := by
  have hlen : ∀ i, 0 ≤ i → i < 0 + g.header.nrows →
      g.header.ncols ≤ (vals i).length := by
    intro i _ hi
    obtain ⟨t, _, _, hc⟩ := h i (by omega)
    exact hc
  exact ⟨runIter_start g.header vals g.data.lines hnc hnr h 0,
    fun it => expectedRows_all_ok _ _ _ _ 0 it,
    expectedRows_length _ _ _ _ 0 hlen⟩

/-- C10 witness: on `exGridSurplus` (first line `1 2 9`, three tokens for two
declared columns) the iterator yields only the first two values of that line
and no error. -/
theorem c10_surplus_tokens_witness :
    runIter (exGridSurplus.intoIter false)
        (exGridSurplus.header.nrows * exGridSurplus.header.ncols + 1)
      = some (expectedRows exGridSurplus.header.nrows exGridSurplus.header.ncols
          (fun i => if i = 0 then [1, 2, 9] else [3, 4]) 0
          exGridSurplus.header.nrows) ∧
    (∀ it ∈ expectedRows exGridSurplus.header.nrows exGridSurplus.header.ncols
        (fun i => if i = 0 then [1, 2, 9] else [3, 4]) 0 exGridSurplus.header.nrows,
      ∃ r c v, it = Except.ok (r, c, v)) ∧
    (expectedRows exGridSurplus.header.nrows exGridSurplus.header.ncols
        (fun i => if i = 0 then [1, 2, 9] else [3, 4]) 0
        exGridSurplus.header.nrows).length
      = exGridSurplus.header.nrows * exGridSurplus.header.ncols :=
  c10_surplus_tokens exGridSurplus (fun i => if i = 0 then [1, 2, 9] else [3, 4])
    (by decide) (by decide)
    (by
      intro i hi
      have hi2 : i < 2 := hi
      interval_cases i
      · exact ⟨[some 1, some 2, some 9], rfl, rfl, by decide⟩
      · exact ⟨[some 3, some 4], rfl, rfl, by decide⟩)
    0 (by decide) (by decide)
